import Mathlib

/-!
Verification of the concurrent work-distribution pipeline of minimap2-rs.

The development shallowly embeds:
* the channel-based pipeline of `examples/channels.rs` and
  `fakeminimap2/src/channels.rs` (producer / worker pool / collector over two
  bounded `ArrayQueue`s and an atomic shutdown flag) as a small-step
  transition system on explicit states;
* the reference-counted index handle (`Arc<MmIdx>` whose inner drop runs
  `mm_idx_destroy`, `minimap2-sys/src/lib.rs`);
* `Aligner::set_index`, `Aligner::map` and the `Aligner<Built>` index-loading
  methods of `src/lib.rs`;
* the inline worker of `minimappers2/src/lib.rs` `Aligner::map`.

Machine integers do not matter for any of the properties below (all counts
are small and no arithmetic overflow is relied on by the source), so sizes
and byte values are embedded as `Nat`.
-/

/-! ## The channel pipeline of `examples/channels.rs` / `fakeminimap2/src/channels.rs`

Each thread of the Rust program is embedded as a state machine and the whole
pipeline as an interleaving small-step relation.  Queue operations on
`crossbeam::queue::ArrayQueue` are per-operation atomic, and the shutdown
flag is a single atomic boolean, so every execution of the program is an
interleaving of these atomic operations; backoff/snooze calls do not change
any state and are dropped.  The worker's `None` branch reads the shutdown
flag and then `work_queue.is_empty()`; since the flag is monotone and the
producer performs its last push before setting it, reading both in one step
is equivalent, and is modelled as the single `workerTerminate` step.  The
collector's `None` branch, by contrast, is modelled in two steps
(`collectorSawEmpty` then `collectorComplete`/`collectorRetry`), because the
`pop` that returned `None` and the later `jh.iter().all(|h| h.is_finished())`
check are separate observations with an arbitrary delay between them. -/

namespace Channels

/-- `WorkUnit` of channels.rs: `(Vec<u8>, Vec<u8>)`, sequence id and sequence. -/
structure WorkUnit where
  wid : List Nat
  wseq : List Nat
  deriving DecidableEq

/-- `WorkResult` of channels.rs: the original `WorkUnit` plus the mappings
returned by `aligner.map` (mappings are opaque to the pipeline). -/
structure WorkResult where
  unit : WorkUnit
  mappings : List Nat
  deriving DecidableEq

/-- The producer thread (channels.rs lines 100-118): reads records one at a
time, push-retries each onto the work queue, and stores the shutdown flag
after the loop ends. -/
inductive ProducerState
  | reading (remaining : List WorkUnit)
  | pushing (item : WorkUnit) (remaining : List WorkUnit)
  | settingShutdown
  | finished
  deriving DecidableEq

/-- A worker thread (channels.rs `worker`): popping work, or push-retrying a
computed result, or terminated (broken out of its loop). -/
inductive WorkerState
  | waiting
  | pushingResult (res : WorkResult)
  | terminated
  deriving DecidableEq

/-- The collector loop in `map` (channels.rs lines 126-147). -/
inductive CollectorState
  | collecting
  | checkingFinished
  | completed
  deriving DecidableEq

structure PipelineState where
  workQueue : List WorkUnit
  resultsQueue : List WorkResult
  shutdown : Bool
  producer : ProducerState
  workers : List WorkerState
  collector : CollectorState
  collected : List WorkResult
  deriving DecidableEq

/-- `jh.iter().all(|h| h.is_finished())`: `jh` holds every worker handle and
the producer handle. -/
def allThreadsFinished (s : PipelineState) : Bool :=
  (s.producer == .finished) && s.workers.all fun w => w == .terminated

/-- One atomic step of the pipeline, parameterized by the alignment call
(`align`, external per spec §6; the panic-on-error branch is treated by the
separate worker embedding below) and the two queue capacities (both 1024 in
channels.rs). -/
inductive Step (align : WorkUnit → List Nat) (capW capR : Nat) :
    PipelineState → PipelineState → Prop
  | producerRead (s : PipelineState) (r : WorkUnit) (rs : List WorkUnit) :
      s.producer = .reading (r :: rs) →
      Step align capW capR s { s with producer := .pushing r rs }
  | producerExhausted (s : PipelineState) :
      s.producer = .reading [] →
      Step align capW capR s { s with producer := .settingShutdown }
  | producerPush (s : PipelineState) (r : WorkUnit) (rs : List WorkUnit) :
      s.producer = .pushing r rs →
      s.workQueue.length < capW →
      Step align capW capR s
        { s with workQueue := s.workQueue ++ [r], producer := .reading rs }
  | producerSetShutdown (s : PipelineState) :
      s.producer = .settingShutdown →
      Step align capW capR s { s with shutdown := true, producer := .finished }
  | workerPop (s : PipelineState) (i : Nat) (r : WorkUnit) (rest : List WorkUnit) :
      s.workers.get? i = some .waiting →
      s.workQueue = r :: rest →
      Step align capW capR s
        { s with workQueue := rest,
                 workers := s.workers.set i (.pushingResult ⟨r, align r⟩) }
  | workerTerminate (s : PipelineState) (i : Nat) :
      s.workers.get? i = some .waiting →
      s.workQueue = [] →
      s.shutdown = true →
      Step align capW capR s { s with workers := s.workers.set i .terminated }
  | workerPushResult (s : PipelineState) (i : Nat) (res : WorkResult) :
      s.workers.get? i = some (.pushingResult res) →
      s.resultsQueue.length < capR →
      Step align capW capR s
        { s with resultsQueue := s.resultsQueue ++ [res],
                 workers := s.workers.set i .waiting }
  | collectorPop (s : PipelineState) (x : WorkResult) (rest : List WorkResult) :
      s.collector = .collecting →
      s.resultsQueue = x :: rest →
      Step align capW capR s
        { s with resultsQueue := rest, collected := s.collected ++ [x] }
  | collectorSawEmpty (s : PipelineState) :
      s.collector = .collecting →
      s.resultsQueue = [] →
      Step align capW capR s { s with collector := .checkingFinished }
  | collectorRetry (s : PipelineState) :
      s.collector = .checkingFinished →
      allThreadsFinished s = false →
      Step align capW capR s { s with collector := .collecting }
  | collectorComplete (s : PipelineState) :
      s.collector = .checkingFinished →
      allThreadsFinished s = true →
      Step align capW capR s { s with collector := .completed }

/-- The state right after `map` has built the index, spawned `n` workers and
the producer, before any of them runs. -/
def initState (records : List WorkUnit) (n : Nat) : PipelineState :=
  { workQueue := [], resultsQueue := [], shutdown := false,
    producer := .reading records, workers := List.replicate n .waiting,
    collector := .collecting, collected := [] }

inductive Reach (align : WorkUnit → List Nat) (capW capR : Nat)
    (records : List WorkUnit) (n : Nat) : PipelineState → Prop
  | start : Reach align capW capR records n (initState records n)
  | next {s t : PipelineState} :
      Reach align capW capR records n s →
      Step align capW capR s t →
      Reach align capW capR records n t

/-- Records still held by the producer thread (not yet pushed). -/
def producerLoad : ProducerState → Nat
  | .reading rs => rs.length
  | .pushing _ rs => rs.length + 1
  | .settingShutdown => 0
  | .finished => 0

def isInFlight : WorkerState → Bool
  | .pushingResult _ => true
  | _ => false

/-- Number of workers currently holding a popped-but-not-yet-delivered item. -/
def inFlight (ws : List WorkerState) : Nat := ws.countP isInFlight

/-- Every record is in exactly one place: with the producer, in the work
queue, inside a worker, in the results queue, or collected. -/
def tally (s : PipelineState) : Nat :=
  producerLoad s.producer + s.workQueue.length + inFlight s.workers
    + s.resultsQueue.length + s.collected.length

/-! Concrete instances used to exhibit executions.  `cAlign` stands for the
external alignment call, returning one mapping for every sequence. -/

def cAlign : WorkUnit → List Nat := fun _ => [7]

def u0 : WorkUnit := ⟨[1], [2]⟩

def res0 : WorkResult := ⟨u0, [7]⟩

/-- Terminal state of the schedule in which the collector of channels.rs
declares completion while `res0` is still sitting in the results queue. -/
def lostState : PipelineState :=
  { workQueue := [], resultsQueue := [res0], shutdown := true,
    producer := .finished, workers := [.terminated],
    collector := .completed, collected := [] }

/-- Terminal state of a run started with `threads = 0`: the single record is
still in the work queue, nothing was collected, and the collector completed. -/
def zeroThreadState : PipelineState :=
  { workQueue := [u0], resultsQueue := [], shutdown := true,
    producer := .finished, workers := [],
    collector := .completed, collected := [] }

/-- A fully terminated one-worker pipeline on an empty source. -/
def termState : PipelineState :=
  { workQueue := [], resultsQueue := [], shutdown := true,
    producer := .finished, workers := [.terminated],
    collector := .collecting, collected := [] }

/-- One-record pipeline at the instant before the producer stores the
shutdown flag. -/
def c5s : PipelineState :=
  { workQueue := [u0], resultsQueue := [], shutdown := false,
    producer := .settingShutdown, workers := [.waiting],
    collector := .collecting, collected := [] }

/-- The state right after that store. -/
def c5t : PipelineState :=
  { workQueue := [u0], resultsQueue := [], shutdown := true,
    producer := .finished, workers := [.waiting],
    collector := .collecting, collected := [] }

end Channels

/-! ## The worker body of channels.rs (lines 166-195), with the fallible
alignment call

`aligner.map(..).expect("Unable to align")` panics the worker thread when the
alignment call returns `Err`; there is no error-carrying variant in
`WorkResult = (WorkUnit, Vec<Mapping>)`, so a failed record cannot even be
represented in the result queue. -/

namespace ChannelsWorker

/-- Outcome of one `Some(WorkQueue::Work(sequence))` arm of the worker. -/
inductive ProcessOutcome
  | panicked (msg : String)
  | pushed (res : Channels.WorkResult)
  deriving DecidableEq

/-- channels.rs lines 171-183: run the alignment call; on `Err` the
`expect` panics the thread, on `Ok` the worker enters the push-retry loop
carrying `WorkQueue::Result((sequence, alignment))`. -/
def processWork (alignCall : Channels.WorkUnit → Except String (List Nat))
    (u : Channels.WorkUnit) : ProcessOutcome :=
  match alignCall u with
  | .error _ => .panicked "Unable to align"
  | .ok ms => .pushed ⟨u, ms⟩

def failingAlign : Channels.WorkUnit → Except String (List Nat) :=
  fun _ => .error "mm_map failed"

end ChannelsWorker

/-! ## The inline worker of `minimappers2/src/lib.rs::Aligner::map` (lines 91-124)

The work queue is an `Arc<Mutex<Vec<Sequence>>>` popped from the back; the
results queue is `ArrayQueue::new(128)`; both `results_queue.push(...)` calls
discard the returned `Result`, so a push onto a full queue silently loses its
item. -/

namespace Minimappers2

/-- `Sequence` of minimappers2: `{ id: String, sequence: Vec<u8> }`. -/
structure Sequence where
  sid : List Nat
  sseq : List Nat
  deriving DecidableEq

/-- `WorkQueue<Vec<Mapping>>` as used there: `Work(result)` or `Done`. -/
inductive WorkMsg
  | work (mappings : List Nat)
  | done
  deriving DecidableEq

/-- `ArrayQueue::push` with its `Result` discarded (lines 114 and 118):
appends when there is room, silently drops the item otherwise. -/
def pushDiscard (cap : Nat) (q : List WorkMsg) (x : WorkMsg) : List WorkMsg :=
  if q.length < cap then q ++ [x] else q

/-- One iteration of the spawned worker loop (lines 100-122): lock the work
`Vec`, pop from its back; on `Some` align and push the result once; on
`None` push `Done` once and break (the `Bool` is the break flag). -/
def workerIteration (align : Sequence → List Nat) (cap : Nat)
    (work : List Sequence) (rq : List WorkMsg) :
    List Sequence × List WorkMsg × Bool :=
  match work.getLast? with
  | some s => (work.dropLast, pushDiscard cap rq (.work (align s)), false)
  | none => (work, pushDiscard cap rq .done, true)

def mmAlign : Sequence → List Nat := fun _ => [5]

def mmSeq : Sequence := ⟨[9], [3]⟩

/-- A full results queue: 128 items already waiting (capacity from line 92). -/
def fullQ : List WorkMsg := List.replicate 128 (WorkMsg.work [])

end Minimappers2

/-! ## The reference-counted index handle

`Aligner.idx : Option<Arc<MmIdx>>` (src/lib.rs line 347) shares the index;
`impl Drop for mm_idx_t` (minimap2-sys/src/lib.rs lines 17-21) runs
`mm_idx_destroy`.  The `MmIdx` wrapper and the `Arc` internals are not under
src/; following spec §4.2 the handle is modelled as an atomic reference
count whose drop operation decrements and invokes the foreign destroy
exactly when the count reaches zero.  Concurrent clones and drops of the
atomic count linearize, so an execution is an arbitrary sequence of
operations, each performed while at least one handle is live. -/

namespace IndexRc

inductive RcOp
  | clone
  | drop
  deriving DecidableEq

/-- `count` = live handles; `destroyCount` = number of `mm_idx_destroy`
invocations so far. -/
structure RcState where
  count : Nat
  destroyCount : Nat
  deriving DecidableEq

/-- Modelled from the spec: §4.2 — "clone: increments a shared reference
count"; "implicit destructor: decrements the reference count; when it
reaches zero, invokes the foreign resource's destroy operation exactly once"
(the destroy operation being `mm_idx_destroy` via `Drop for mm_idx_t`). -/
def rcStep : RcState → RcOp → RcState
  | s, .clone => ⟨s.count + 1, s.destroyCount⟩
  | s, .drop => if s.count = 1 then ⟨0, s.destroyCount + 1⟩ else ⟨s.count - 1, s.destroyCount⟩

def rcRun (s : RcState) (ops : List RcOp) : RcState := ops.foldl rcStep s

/-- An operation sequence is well-formed when every operation is issued by a
live handle: ownership guarantees a clone or drop can only happen while the
count is positive. -/
def rcLive : RcState → List RcOp → Bool
  | _, [] => true
  | s, op :: ops => (decide (0 < s.count)) && rcLive (rcStep s op) ops

/-- The state right after `set_index` stored the one freshly built handle. -/
def rcInit : RcState := ⟨1, 0⟩

def countClones : List RcOp → Nat
  | [] => 0
  | .clone :: ops => countClones ops + 1
  | .drop :: ops => countClones ops

def countDrops : List RcOp → Nat
  | [] => 0
  | .clone :: ops => countDrops ops
  | .drop :: ops => countDrops ops + 1

end IndexRc

/-! ## `Aligner::set_index` (src/lib.rs lines 740-808) and the `map` prelude
of channels.rs (lines 50-91)

The filesystem state of the index source is embedded as the three facts the
wrapper can observe (`present`, `size`) plus whether the foreign reader can
actually parse it (`parseable`, external).  After its three explicit checks
(path representable as a C string, file exists, file non-empty) and the
output-name check, the wrapper calls `mm_idx_reader_open` /
`mm_idx_reader_read` unconditionally and returns `Ok` without inspecting
their outcome, so `parseable` never influences the returned value. -/

namespace SetIndex

structure FsFile where
  present : Bool
  size : Nat
  parseable : Bool
  deriving DecidableEq

/-- The `Aligner<Built>` value returned on success: `idx` is set. -/
structure BuiltAligner where
  idxSet : Bool
  source : FsFile
  deriving DecidableEq

/-- `CString::new` fails exactly when the byte string contains a NUL. -/
def hasNulByte (bytes : List Nat) : Bool := bytes.contains 0

/-- `set_index` (src/lib.rs lines 740-808), with `expect`-free result
threading; the checks appear in source order. -/
def set_index (path : List Nat) (f : FsFile) (output : Option (List Nat)) :
    Except String BuiltAligner :=
  if hasNulByte path then .error "Invalid Path for Index"
  else if f.present = false then .error "Index File does not exist"
  else if f.size = 0 then .error "Index File is empty"
  else
    match output with
    | some o =>
        if hasNulByte o then .error "Invalid Output for Index"
        else .ok ⟨true, f⟩
    | none => .ok ⟨true, f⟩

/-- The sequential prelude of channels.rs `map` (lines 50-91): build the
aligner with `with_index` (which is `set_index`) first; only on success are
the worker threads spawned with clones of the built aligner.  A build error
aborts before any worker exists. -/
def channelsStart (path : List Nat) (f : FsFile)
    (records : List Channels.WorkUnit) (threads : Nat) :
    Except String Channels.PipelineState :=
  match set_index path f none with
  | .error e => .error e
  | .ok _ => .ok (Channels.initState records threads)

end SetIndex

/-! ## The index behind `Aligner<Built>` (src/lib.rs lines 942-1067)

`mm_idx_t` is embedded by the fields these methods touch.  `map` hands the
index to `mm_map` as `*const mm_idx_t` (line 1116) and §6 specifies the
alignment call as pure, so the query leaves the index unchanged;
`read_junction` / `read_pass1` (`mm_idx_jjump_read`) and
`read_splice_scores` (`mm_idx_spsc_read`) instead cast the shared pointer to
`*mut mm_idx_t` and load data *into* the index — their foreign calls are
modelled by the parse outcome of the given file (`some` data on success). -/

instance {ε α : Type} [DecidableEq ε] [DecidableEq α] : DecidableEq (Except ε α) := fun x y =>
  match x, y with
  | .error e, .error f =>
      if h : e = f then .isTrue (congrArg Except.error h)
      else .isFalse fun he => h (Except.error.inj he)
  | .error _, .ok _ => .isFalse fun he => Except.noConfusion he
  | .ok _, .error _ => .isFalse fun he => Except.noConfusion he
  | .ok a, .ok b =>
      if h : a = b then .isTrue (congrArg Except.ok h)
      else .isFalse fun he => h (Except.ok.inj he)

namespace BuiltIndex

structure MmIdxT where
  n_seq : Nat
  seqNames : List (List Nat)
  jumpData : Option (List Nat)
  spsc : Option (List Nat)
  deriving DecidableEq

/-- `read_junction` (src/lib.rs lines 945-964): `mm_idx_jjump_read` loads
the parsed BED junctions into the index and returns 0, or fails leaving it
unchanged; the wrapper maps nonzero returns to `Err(ret)`. -/
def read_junction (idx : MmIdxT) (bedParse : Option (List Nat)) :
    MmIdxT × Except Int Unit :=
  match bedParse with
  | some d => ({ idx with jumpData := some d }, .ok ())
  | none => (idx, .error (-1))

/-- `read_splice_scores` (src/lib.rs lines 988-1002): `mm_idx_spsc_read`
loads the scores into `idx.spsc`; the wrapper reports `Err(-1)` when `spsc`
is still null afterwards. -/
def read_splice_scores (idx : MmIdxT) (parse : Option (List Nat)) :
    MmIdxT × Except Int Unit :=
  match parse with
  | some d => ({ idx with spsc := some d }, .ok ())
  | none => (idx, .error (-1))

/-- The operations a caller can perform through a shared `Aligner<Built>`. -/
inductive BuiltOp
  | mapOp (seq : List Nat)
  | nSeqOp
  | readJunctionOp (bedParse : Option (List Nat))
  | readPass1Op (bedParse : Option (List Nat))
  | readSpliceScoresOp (parse : Option (List Nat))
  deriving DecidableEq

inductive OpOutput
  | mappings (ms : List Nat)
  | count (n : Nat)
  | status (r : Except Int Unit)
  deriving DecidableEq

/-- Dispatch of the `Aligner<Built>` methods on the shared index.  `ffiMap`
is the external `mm_map` (spec §6: pure, read-only in the index, which the
wrapper enforces by passing `*const mm_idx_t`). -/
def runOp (ffiMap : MmIdxT → List Nat → List Nat) (idx : MmIdxT) :
    BuiltOp → MmIdxT × OpOutput
  | .mapOp s => (idx, .mappings (ffiMap idx s))
  | .nSeqOp => (idx, .count idx.n_seq)
  | .readJunctionOp bp =>
      ((read_junction idx bp).1, .status (read_junction idx bp).2)
  | .readPass1Op bp =>
      ((read_junction idx bp).1, .status (read_junction idx bp).2)
  | .readSpliceScoresOp p =>
      ((read_splice_scores idx p).1, .status (read_splice_scores idx p).2)

def idx0 : MmIdxT := ⟨1, [[65]], none, none⟩

def ffi0 : MmIdxT → List Nat → List Nat := fun _ _ => []

end BuiltIndex

/-! ## `Aligner<Built>::map` argument checking (src/lib.rs lines 1050-1084)

The dispatch up to the foreign `mm_map` call: the index check comes first,
then the empty-sequence check, then the query-name conversion (whose
failures `expect`-panic); only then is `mm_map` invoked. -/

namespace AlignerMap

inductive MapOutcome
  | errResult (msg : String)
  | panicked (msg : String)
  | ffiMapCall (seq : List Nat) (qname : Option (List Nat))
  deriving DecidableEq

/-- Whether the query-name bytes convert: with no trailing NUL,
`CString::new` demands no NUL at all; with a trailing NUL,
`CStr::from_bytes_with_nul` demands exactly the one terminator. -/
def okQueryName (q : List Nat) : Bool :=
  match q.getLast? with
  | some 0 => q.count 0 == 1
  | _ => q.count 0 == 0

/-- `map` (src/lib.rs lines 1050-1124) up to the `mm_map` invocation;
`hasIdx` is `self.has_index()` (line 1459: `self.idx.is_some()`). -/
def aligner_map (hasIdx : Bool) (seq : List Nat) (qname : Option (List Nat)) :
    MapOutcome :=
  if hasIdx = false then .errResult "No index"
  else if seq.isEmpty then .errResult "Sequence is empty"
  else
    match qname with
    | none => .ffiMapCall seq none
    | some q =>
        if okQueryName q then .ffiMapCall seq (some q)
        else .panicked "Invalid query name"

end AlignerMap

/-! # Theorems -/

namespace ListFacts

variable {α : Type}

theorem lt_length_of_get?_eq_some {l : List α} {i : Nat} {a : α}
    (h : l.get? i = some a) : i < l.length := by
  induction l generalizing i with
  | nil => simp [List.get?] at h
  | cons x t ih =>
    cases i with
    | zero => simp
    | succ j =>
      have := ih (by simpa [List.get?] using h)
      simpa using Nat.succ_lt_succ this

theorem get?_set_self (l : List α) (i : Nat) (b : α) (h : i < l.length) :
    (l.set i b).get? i = some b := by
  induction l generalizing i with
  | nil => simp at h
  | cons x t ih =>
    cases i with
    | zero => rfl
    | succ j =>
      have hj : j < t.length := by simpa using Nat.lt_of_succ_lt_succ h
      simpa [List.set, List.get?] using ih j hj

theorem get?_set_ne (l : List α) (i j : Nat) (b : α) (h : i ≠ j) :
    (l.set i b).get? j = l.get? j := by
  induction l generalizing i j with
  | nil => simp [List.set]
  | cons x t ih =>
    cases i with
    | zero =>
      cases j with
      | zero => exact absurd rfl h
      | succ k => rfl
    | succ i2 =>
      cases j with
      | zero => rfl
      | succ k =>
        have : i2 ≠ k := fun he => h (by rw [he])
        simpa [List.set, List.get?] using ih i2 k this

theorem mem_of_mem_set {l : List α} {i : Nat} {a b : α}
    (h : a ∈ l.set i b) : a = b ∨ a ∈ l := by
  induction l generalizing i with
  | nil => simp [List.set] at h
  | cons x t ih =>
    cases i with
    | zero =>
      rcases List.mem_cons.mp h with h1 | h1
      · exact Or.inl h1
      · exact Or.inr (List.mem_cons_of_mem _ h1)
    | succ j =>
      rcases List.mem_cons.mp h with h1 | h1
      · exact Or.inr (h1 ▸ List.mem_cons_self _ _)
      · rcases ih h1 with h2 | h2
        · exact Or.inl h2
        · exact Or.inr (List.mem_cons_of_mem _ h2)

theorem set_mem_self {l : List α} {i : Nat} (b : α) (h : i < l.length) :
    b ∈ l.set i b := by
  induction l generalizing i with
  | nil => simp at h
  | cons x t ih =>
    cases i with
    | zero => exact List.mem_cons_self _ _
    | succ j =>
      have hj : j < t.length := by simpa using Nat.lt_of_succ_lt_succ h
      exact List.mem_cons_of_mem _ (ih hj)

theorem countP_set (p : α → Bool) (l : List α) (i : Nat) (a b : α)
    (h : l.get? i = some a) :
    (l.set i b).countP p + (if p a then 1 else 0)
      = l.countP p + (if p b then 1 else 0) := by
  induction l generalizing i with
  | nil => simp [List.get?] at h
  | cons x t ih =>
    cases i with
    | zero =>
      have hx : x = a := by simpa [List.get?] using h
      subst hx
      simp [List.set, List.countP_cons]
      omega
    | succ j =>
      have h2 : t.get? j = some a := by simpa [List.get?] using h
      have := ih j h2
      simp [List.set, List.countP_cons]
      omega

end ListFacts

namespace Channels

/-- The shutdown flag is set by exactly one program point: the producer's
`shutdown.store(true, ...)` after its record loop. -/
theorem shutdown_change_step {align : WorkUnit → List Nat} {capW capR : Nat}
    {s t : PipelineState} (h : Step align capW capR s t) :
    t.shutdown = s.shutdown ∨
      (s.producer = .settingShutdown ∧ s.shutdown = t.shutdown ∨
        s.producer = .settingShutdown ∧ t.shutdown = true ∧ t.producer = .finished) := by
  cases h
  case producerSetShutdown hp => exact Or.inr (Or.inr ⟨hp, rfl, rfl⟩)
  all_goals exact Or.inl rfl

/-- Once the shutdown flag is observed `true`, the producer thread has
already returned: the store is its last action. -/
theorem shutdown_imp_finished {align : WorkUnit → List Nat} {capW capR : Nat}
    {records : List WorkUnit} {n : Nat} {s : PipelineState}
    (h : Reach align capW capR records n s) :
    s.shutdown = true → s.producer = .finished := by
  induction h with
  | start => intro hx; simp [initState] at hx
  | next hr hs ih =>
    intro hx
    cases hs
    case producerSetShutdown hp => rfl
    case producerRead r rs hp =>
      have h2 := ih hx
      rw [h2] at hp
      simp at hp
    case producerExhausted hp =>
      have h2 := ih hx
      rw [h2] at hp
      simp at hp
    case producerPush r rs hp hcap =>
      have h2 := ih hx
      rw [h2] at hp
      simp at hp
    all_goals exact ih hx

/-- A terminated worker exists only after the shutdown flag was set. -/
theorem terminated_imp_shutdown {align : WorkUnit → List Nat} {capW capR : Nat}
    {records : List WorkUnit} {n : Nat} {s : PipelineState}
    (h : Reach align capW capR records n s) :
    WorkerState.terminated ∈ s.workers → s.shutdown = true := by
  induction h with
  | start =>
    intro hm
    have := List.eq_of_mem_replicate (show WorkerState.terminated ∈ List.replicate n WorkerState.waiting from hm)
    simp at this
  | next hr hs ih =>
    intro hm
    cases hs
    case workerTerminate i hw hq hsd => exact hsd
    case producerSetShutdown hp => rfl
    case workerPop i r rest hw hq =>
      rcases ListFacts.mem_of_mem_set hm with he | hm2
      · simp at he
      · exact ih hm2
    case workerPushResult i res hw hcap =>
      rcases ListFacts.mem_of_mem_set hm with he | hm2
      · simp at he
      · exact ih hm2
    all_goals exact ih hm

/-- Once every worker of a nonempty pool has terminated, the work queue is
empty (and stays so: the producer is finished and workers never push work). -/
theorem all_terminated_imp_wq_empty {align : WorkUnit → List Nat} {capW capR : Nat}
    {records : List WorkUnit} {n : Nat} {s : PipelineState}
    (h : Reach align capW capR records n s) :
    s.workers ≠ [] → (∀ w ∈ s.workers, w = WorkerState.terminated) →
    s.workQueue = [] := by
  induction h with
  | start => intro _ _; rfl
  | @next s1 t1 hr hs ih =>
    intro hne hall
    cases hs
    case workerTerminate i hw hq hsd => exact hq
    case workerPop i r rest hw hq =>
      have hlt := ListFacts.lt_length_of_get?_eq_some hw
      have hmem := ListFacts.set_mem_self (l := s1.workers) (i := i)
        (WorkerState.pushingResult ⟨r, align r⟩) hlt
      have := hall _ hmem
      simp at this
    case workerPushResult i res hw hcap =>
      have hlt := ListFacts.lt_length_of_get?_eq_some hw
      have hmem := ListFacts.set_mem_self (l := s1.workers) (i := i)
        WorkerState.waiting hlt
      have := hall _ hmem
      simp at this
    case producerPush r rs hp hcap =>
      obtain ⟨w, hwmem⟩ := List.exists_mem_of_ne_nil _ hne
      have hwt := hall _ hwmem
      subst hwt
      have hsd := terminated_imp_shutdown hr hwmem
      have hfin := shutdown_imp_finished hr hsd
      rw [hfin] at hp
      simp at hp
    all_goals exact ih hne hall

/-- Classification of a step that takes worker `i` from `waiting` to
`terminated`: it can only be `workerTerminate`, whose guards are the
shutdown flag and the emptiness of the work queue. -/
theorem waiting_to_terminated_guard {align : WorkUnit → List Nat} {capW capR : Nat}
    {s t : PipelineState} {i : Nat}
    (hstep : Step align capW capR s t)
    (hw : s.workers.get? i = some .waiting)
    (ht : t.workers.get? i = some .terminated) :
    s.shutdown = true ∧ s.workQueue = [] := by
  cases hstep
  case workerTerminate j hjw hq hsd => exact ⟨hsd, hq⟩
  case workerPop j r rest hjw hq =>
    by_cases hij : j = i
    · subst hij
      have hself := ListFacts.get?_set_self s.workers j
        (WorkerState.pushingResult ⟨r, align r⟩)
        (ListFacts.lt_length_of_get?_eq_some hjw)
      have : some (WorkerState.pushingResult ⟨r, align r⟩) = some WorkerState.terminated :=
        hself.symm.trans ht
      simp at this
    · have hne := ListFacts.get?_set_ne s.workers j i
        (WorkerState.pushingResult ⟨r, align r⟩) hij
      have : some WorkerState.waiting = some WorkerState.terminated :=
        hw.symm.trans (hne.symm.trans ht)
      simp at this
  case workerPushResult j res hjw hcap =>
    by_cases hij : j = i
    · subst hij
      have hself := ListFacts.get?_set_self s.workers j WorkerState.waiting
        (ListFacts.lt_length_of_get?_eq_some hjw)
      have : some WorkerState.waiting = some WorkerState.terminated :=
        hself.symm.trans ht
      simp at this
    · have hne := ListFacts.get?_set_ne s.workers j i WorkerState.waiting hij
      have : some WorkerState.waiting = some WorkerState.terminated :=
        hw.symm.trans (hne.symm.trans ht)
      simp at this
  all_goals
    exact absurd (hw.symm.trans ht) (by simp)

theorem inFlight_replicate (n : Nat) :
    inFlight (List.replicate n WorkerState.waiting) = 0 := by
  induction n with
  | zero => rfl
  | succ m ih =>
    simp only [inFlight, List.replicate_succ, List.countP_cons] at *
    simp [isInFlight, ih]

/-- Every step conserves the record count: items only move between the
producer, the work queue, the workers, the results queue and the collector. -/
theorem tally_step {align : WorkUnit → List Nat} {capW capR : Nat}
    {s t : PipelineState} (h : Step align capW capR s t) :
    tally t = tally s := by
  cases h
  case producerRead r rs hp =>
    simp [tally, producerLoad, hp]
  case producerExhausted hp =>
    simp [tally, producerLoad, hp]
  case producerPush r rs hp hcap =>
    simp [tally, producerLoad, hp]
    omega
  case producerSetShutdown hp =>
    simp [tally, producerLoad, hp]
  case workerPop i r rest hw hq =>
    have hcount := ListFacts.countP_set isInFlight s.workers i WorkerState.waiting
      (WorkerState.pushingResult ⟨r, align r⟩) hw
    simp only [isInFlight, if_true, if_false] at hcount
    simp [tally, inFlight, hq] at *
    omega
  case workerTerminate i hw hq hsd =>
    have hcount := ListFacts.countP_set isInFlight s.workers i WorkerState.waiting
      WorkerState.terminated hw
    simp only [isInFlight, if_true, if_false] at hcount
    simp [tally, inFlight] at *
    omega
  case workerPushResult i res hw hcap =>
    have hcount := ListFacts.countP_set isInFlight s.workers i
      (WorkerState.pushingResult res) WorkerState.waiting hw
    simp only [isInFlight, if_true, if_false] at hcount
    simp [tally, inFlight] at *
    omega
  case collectorPop x rest hc hq =>
    simp [tally, hq]
    omega
  case collectorSawEmpty hc hq =>
    simp [tally]
  case collectorRetry hc hf =>
    simp [tally]
  case collectorComplete hc hf =>
    simp [tally]

/-- Conservation: in every reachable state, the records held by the
producer, the two queues, the workers and the collector add up to the
number of source records. -/
theorem tally_reach {align : WorkUnit → List Nat} {capW capR : Nat}
    {records : List WorkUnit} {n : Nat} {s : PipelineState}
    (h : Reach align capW capR records n s) :
    tally s = records.length := by
  induction h with
  | start => simp [tally, initState, producerLoad, inFlight_replicate]
  | next hr hs ih => rw [tally_step hs]; exact ih

/-- An empty-source one-worker run: producer exhausts, stores shutdown, the
worker terminates. -/
theorem reach_termState : Reach cAlign 1024 1024 [] 1 termState := by
  have h0 : Reach cAlign 1024 1024 [] 1 (initState [] 1) := Reach.start
  have h1 := Reach.next h0 (Step.producerExhausted _ rfl)
  have h2 := Reach.next h1 (Step.producerSetShutdown _ rfl)
  exact Reach.next h2 (Step.workerTerminate _ 0 rfl rfl rfl)

/-- A one-record one-worker run up to the instant before the shutdown
store: read, push, exhaust. -/
theorem reach_c5s : Reach cAlign 1024 1024 [u0] 1 c5s := by
  have h0 : Reach cAlign 1024 1024 [u0] 1 (initState [u0] 1) := Reach.start
  have h1 := Reach.next h0 (Step.producerRead _ u0 [] rfl)
  have h2 := Reach.next h1 (Step.producerPush _ u0 [] rfl (by decide))
  exact Reach.next h2 (Step.producerExhausted _ rfl)

end Channels

/-- **C1.** In the channels pipeline (`examples/channels.rs` lines 186-194,
`fakeminimap2/src/channels.rs` lines 216-224), a pop returning `None` leads
a worker to terminate only when the shutdown flag is set AND the work queue
is empty: every step taking a worker from `WaitingForWork` to `Terminated`
has both guards true, and in every reachable state in which a nonempty
worker pool has fully terminated, the shutdown flag is set and the work
queue is empty — no queued-but-unconsumed `WorkUnit` is ever abandoned by
the terminating workers. -/
theorem worker_terminates_only_on_shutdown_and_empty
    (align : Channels.WorkUnit → List Nat) (capW capR : Nat)
    (records : List Channels.WorkUnit) (n : Nat) (s : Channels.PipelineState)
    (h : Channels.Reach align capW capR records n s) :
    (∀ t i, Channels.Step align capW capR s t →
        s.workers.get? i = some Channels.WorkerState.waiting →
        t.workers.get? i = some Channels.WorkerState.terminated →
        s.shutdown = true ∧ s.workQueue = []) ∧
    (s.workers ≠ [] →
        (∀ w ∈ s.workers, w = Channels.WorkerState.terminated) →
        s.shutdown = true ∧ s.workQueue = []) := by
  constructor
  · intro t i hstep hw ht
    exact Channels.waiting_to_terminated_guard hstep hw ht
  · intro hne hall
    refine ⟨?_, Channels.all_terminated_imp_wq_empty h hne hall⟩
    obtain ⟨w, hwmem⟩ := List.exists_mem_of_ne_nil _ hne
    have hwt := hall _ hwmem
    subst hwt
    exact Channels.terminated_imp_shutdown h hwmem

theorem worker_terminates_only_on_shutdown_and_empty_witness :
    Channels.termState.shutdown = true ∧ Channels.termState.workQueue = [] :=
  (worker_terminates_only_on_shutdown_and_empty Channels.cAlign 1024 1024 [] 1
      Channels.termState Channels.reach_termState).2 (by decide) (by decide)

/-- **C5.** Producer of channels.rs (lines 100-118): no record is ever
dropped — in every reachable state all `records.length` records are
accounted for among producer, queues, workers and collector — and the
shutdown flag is flipped by exactly one step, the producer's single store,
which happens only when the producer holds no unread and no unpushed record
(the whole source already sits in the pipeline) and is immediately followed
by producer termination; the flag is never reset. -/
theorem producer_pushes_all_then_sets_shutdown_once
    (align : Channels.WorkUnit → List Nat) (capW capR : Nat)
    (records : List Channels.WorkUnit) (n : Nat) (s : Channels.PipelineState)
    (h : Channels.Reach align capW capR records n s) :
    Channels.tally s = records.length ∧
    (∀ t, Channels.Step align capW capR s t →
        s.shutdown = false → t.shutdown = true →
        s.producer = Channels.ProducerState.settingShutdown ∧
        t.producer = Channels.ProducerState.finished ∧
        Channels.producerLoad s.producer = 0 ∧
        s.workQueue.length + Channels.inFlight s.workers +
          s.resultsQueue.length + s.collected.length = records.length) ∧
    (∀ t, Channels.Step align capW capR s t →
        s.shutdown = true → t.shutdown = true) := by
  refine ⟨Channels.tally_reach h, ?_, ?_⟩
  · intro t hstep hsf hst
    cases hstep
    case producerSetShutdown hp =>
      refine ⟨hp, rfl, by simp [hp, Channels.producerLoad], ?_⟩
      have htally := Channels.tally_reach h
      simp [Channels.tally, hp, Channels.producerLoad] at htally
      omega
    all_goals exact absurd (hsf.symm.trans hst) (by simp)
  · intro t hstep hst
    cases hstep
    case producerSetShutdown hp => rfl
    all_goals exact hst

theorem producer_pushes_all_then_sets_shutdown_once_witness :
    Channels.tally Channels.c5s = 1 ∧
    Channels.c5t.producer = Channels.ProducerState.finished := by
  have h := producer_pushes_all_then_sets_shutdown_once Channels.cAlign 1024 1024
    [Channels.u0] 1 Channels.c5s Channels.reach_c5s
  have hstep : Channels.Step Channels.cAlign 1024 1024 Channels.c5s Channels.c5t :=
    Channels.Step.producerSetShutdown Channels.c5s rfl
  exact ⟨h.1, (h.2.1 Channels.c5t hstep rfl rfl).2.1⟩

namespace Channels

/-- The interleaving in which the collector's `pop` returns `None`, then the
worker delivers its last result and terminates, and only then the collector
finds all join handles finished and breaks. -/
theorem reach_lostState : Reach cAlign 1024 1024 [u0] 1 lostState := by
  have h0 : Reach cAlign 1024 1024 [u0] 1 (initState [u0] 1) := Reach.start
  have h1 := Reach.next h0 (Step.producerRead _ u0 [] rfl)
  have h2 := Reach.next h1 (Step.producerPush _ u0 [] rfl (by decide))
  have h3 := Reach.next h2 (Step.workerPop _ 0 u0 [] rfl rfl)
  have h4 := Reach.next h3 (Step.producerExhausted _ rfl)
  have h5 := Reach.next h4 (Step.producerSetShutdown _ rfl)
  have h6 := Reach.next h5 (Step.collectorSawEmpty _ rfl rfl)
  have h7 := Reach.next h6 (Step.workerPushResult _ 0 res0 rfl (by decide))
  have h8 := Reach.next h7 (Step.workerTerminate _ 0 rfl rfl rfl)
  exact Reach.next h8 (Step.collectorComplete _ rfl rfl)

/-- A `threads = 0` run: no worker exists, the producer enqueues its record
and sets shutdown, and the collector immediately finds every join handle
finished. -/
theorem reach_zeroThreadState : Reach cAlign 1024 1024 [u0] 0 zeroThreadState := by
  have h0 : Reach cAlign 1024 1024 [u0] 0 (initState [u0] 0) := Reach.start
  have h1 := Reach.next h0 (Step.producerRead _ u0 [] rfl)
  have h2 := Reach.next h1 (Step.producerPush _ u0 [] rfl (by decide))
  have h3 := Reach.next h2 (Step.producerExhausted _ rfl)
  have h4 := Reach.next h3 (Step.producerSetShutdown _ rfl)
  have h5 := Reach.next h4 (Step.collectorSawEmpty _ rfl rfl)
  exact Reach.next h5 (Step.collectorComplete _ rfl rfl)

end Channels

/-- **C4.** The collector of channels.rs (lines 126-147) and
fakeminimap2/src/channels.rs (lines 137-170) does NOT perform a confirming
pop: upon popping `None` it breaks as soon as all join handles are
finished.  The schedule below is reachable: the collector's pop returns
`None`, the worker then pushes its result and terminates, the collector's
finished-check passes and it declares completion — leaving `res0` uncollected
in the results queue, so only 0 of 1 results are observed. -/
theorem collector_break_loses_last_result :
    Channels.Reach Channels.cAlign 1024 1024 [Channels.u0] 1 Channels.lostState ∧
    Channels.lostState.collector = Channels.CollectorState.completed ∧
    Channels.lostState.collected = [] ∧
    Channels.lostState.resultsQueue = [Channels.res0] ∧
    Channels.lostState.collected.length ≠ ([Channels.u0] : List Channels.WorkUnit).length :=
  ⟨Channels.reach_lostState, rfl, rfl, rfl, by decide⟩

/-- **C9.** `map` of channels.rs (lines 50-91) performs no validation of
`threads` whatsoever (and the queue capacities are hard-coded to 1024): with
`thread_count = 0` the run reaches a completed state with the submitted
record still sitting unprocessed in the work queue and zero results
collected — silent loss of work rather than an explicit configuration
error (no error state even exists on this path). -/
theorem zero_threads_completes_silently_losing_work :
    Channels.Reach Channels.cAlign 1024 1024 [Channels.u0] 0 Channels.zeroThreadState ∧
    Channels.zeroThreadState.collector = Channels.CollectorState.completed ∧
    Channels.zeroThreadState.workQueue = [Channels.u0] ∧
    Channels.zeroThreadState.collected = [] :=
  ⟨Channels.reach_zeroThreadState, rfl, rfl, rfl⟩

set_option maxRecDepth 4000 in
/-- **C2.** The worker inlined in `minimappers2/src/lib.rs::Aligner::map`
(lines 100-122) does NOT retry its result push: `results_queue.push(...)`
discards the returned `Result`, so on a full results queue (capacity 128,
line 92) the freshly computed `ResultItem` is silently dropped — fewer than
N results can reach the collector.  Evaluated at the failing input: the
queue already holds 128 items, the worker processes `mmSeq`, and afterwards
the queue is unchanged and the worker's result (`work [5]`) is nowhere. -/
theorem minimappers2_worker_drops_result_on_full_queue :
    Minimappers2.workerIteration Minimappers2.mmAlign 128 [Minimappers2.mmSeq]
        Minimappers2.fullQ = ([], Minimappers2.fullQ, false) ∧
    Minimappers2.WorkMsg.work [5] ∉ Minimappers2.fullQ := by
  constructor
  · decide
  · decide

namespace IndexRc

theorem rcRun_cons (s : RcState) (op : RcOp) (ops : List RcOp) :
    rcRun s (op :: ops) = rcRun (rcStep s op) ops := rfl

theorem rcLive_cons {s : RcState} {op : RcOp} {ops : List RcOp}
    (h : rcLive s (op :: ops) = true) :
    0 < s.count ∧ rcLive (rcStep s op) ops = true := by
  simp only [rcLive, Bool.and_eq_true, decide_eq_true_eq] at h
  exact h

theorem rcLive_append (p q : List RcOp) (s : RcState)
    (h : rcLive s (p ++ q) = true) :
    rcLive s p = true ∧ rcLive (rcRun s p) q = true := by
  induction p generalizing s with
  | nil => exact ⟨rfl, h⟩
  | cons op rest ih =>
    have h2 : rcLive s (op :: (rest ++ q)) = true := h
    obtain ⟨h1, h3⟩ := rcLive_cons h2
    obtain ⟨h4, h5⟩ := ih (rcStep s op) h3
    refine ⟨?_, h5⟩
    simp only [rcLive, Bool.and_eq_true, decide_eq_true_eq]
    exact ⟨h1, h4⟩

/-- Counting invariant of a well-formed clone/drop history starting from a
live, never-destroyed handle: drops decrement the count one-for-one, and
the destroy call has fired exactly when the count has reached zero. -/
theorem rcRun_inv : ∀ (ops : List RcOp) (s : RcState),
    rcLive s ops = true → 0 < s.count → s.destroyCount = 0 →
    (rcRun s ops).count + countDrops ops = s.count + countClones ops ∧
    (rcRun s ops).destroyCount = (if (rcRun s ops).count = 0 then 1 else 0) := by
  intro ops
  induction ops with
  | nil =>
    intro s _ hc hd
    refine ⟨by simp [rcRun, countDrops, countClones], ?_⟩
    have hne : ¬ s.count = 0 := by omega
    simp [rcRun, hd, hne]
  | cons op rest ih =>
    intro s hlive hc hd
    obtain ⟨h1, h2⟩ := rcLive_cons hlive
    cases op with
    | clone =>
      have hih := ih (rcStep s .clone) h2 (by simp [rcStep]) (by simp [rcStep, hd])
      rw [rcRun_cons]
      refine ⟨?_, hih.2⟩
      have hcnt := hih.1
      have hsc : (rcStep s RcOp.clone).count = s.count + 1 := rfl
      simp only [countDrops, countClones]
      omega
    | drop =>
      by_cases hone : s.count = 1
      · have hstep : rcStep s RcOp.drop = ⟨0, s.destroyCount + 1⟩ := by
          simp [rcStep, hone]
        cases rest with
        | nil =>
          rw [rcRun_cons, hstep]
          refine ⟨?_, ?_⟩
          · simp [rcRun, countDrops, countClones, hone]
          · simp [rcRun, hd]
        | cons op2 rest2 =>
          exfalso
          rw [hstep] at h2
          obtain ⟨hbad, _⟩ := rcLive_cons h2
          simp at hbad
      · have hstep : rcStep s RcOp.drop = ⟨s.count - 1, s.destroyCount⟩ := by
          simp [rcStep, hone]
        have hih := ih (rcStep s .drop) h2
          (by rw [hstep]; simp; omega) (by rw [hstep]; exact hd)
        rw [rcRun_cons]
        refine ⟨?_, hih.2⟩
        have hcnt := hih.1
        have hsc : (rcStep s RcOp.drop).count = s.count - 1 := by rw [hstep]
        simp only [countDrops, countClones]
        omega

end IndexRc

/-- **C3.** One index handle is created by `set_index` and cloned K times
(`Arc::clone` per worker); all K+1 handles are then dropped in an arbitrary
interleaved order (atomic reference-count operations linearize, so a
concurrent execution is some such sequence, each operation issued by a live
handle).  The foreign destroy operation (`mm_idx_destroy`, run by the drop
implementation in minimap2-sys) fires exactly once, and only at the final
drop: every proper prefix of the history has a destroy count of zero. -/
theorem index_destroy_runs_exactly_once (K : Nat) (ops : List IndexRc.RcOp)
    (hlive : IndexRc.rcLive IndexRc.rcInit ops = true)
    (hclone : IndexRc.countClones ops = K)
    (hdrop : IndexRc.countDrops ops = K + 1) :
    (IndexRc.rcRun IndexRc.rcInit ops).destroyCount = 1 ∧
    (IndexRc.rcRun IndexRc.rcInit ops).count = 0 ∧
    (∀ p q, ops = p ++ q → q ≠ [] →
        (IndexRc.rcRun IndexRc.rcInit p).destroyCount = 0) := by
  have hinv := IndexRc.rcRun_inv ops IndexRc.rcInit hlive (by decide) rfl
  have hcount0 : (IndexRc.rcRun IndexRc.rcInit ops).count = 0 := by
    have := hinv.1
    rw [hclone, hdrop] at this
    have hc1 : IndexRc.rcInit.count = 1 := rfl
    omega
  refine ⟨?_, hcount0, ?_⟩
  · have := hinv.2
    rw [hcount0] at this
    simpa using this
  · intro p q hpq hqne
    subst hpq
    obtain ⟨hp, hq⟩ := IndexRc.rcLive_append p q IndexRc.rcInit hlive
    obtain ⟨op2, rest2, rfl⟩ := List.exists_cons_of_ne_nil hqne
    obtain ⟨hpos, _⟩ := IndexRc.rcLive_cons hq
    have hpinv := IndexRc.rcRun_inv p IndexRc.rcInit hp (by decide) rfl
    have := hpinv.2
    rw [if_neg (by omega)] at this
    exact this

theorem index_destroy_runs_exactly_once_witness :
    (IndexRc.rcRun IndexRc.rcInit
        [IndexRc.RcOp.clone, IndexRc.RcOp.clone, IndexRc.RcOp.drop,
         IndexRc.RcOp.drop, IndexRc.RcOp.drop]).destroyCount = 1 :=
  (index_destroy_runs_exactly_once 2 _ (by decide) (by decide) (by decide)).1

/-- **C6 counterexample.** A malformed source — a file that exists and is
non-empty but that the foreign reader cannot parse — is NOT rejected:
`set_index` performs only the path/existence/emptiness checks and then
returns `Ok` without ever inspecting the outcome of `mm_idx_reader_open` /
`mm_idx_reader_read`, so no `BuildError` is produced for it. -/
theorem set_index_accepts_malformed_source :
    SetIndex.set_index [1] ⟨true, 5, false⟩ none =
      Except.ok ⟨true, ⟨true, 5, false⟩⟩ := rfl

/-- **C6 (amended).** `set_index` (and `with_index`, which merely forwards
to it) returns an error for every missing and for every empty source; any
`Ok` it returns has the index set and came from an existing non-empty file;
and in the channels `map` prelude the failure surfaces before any worker is
created, while on success all workers are spawned only afterwards.
Malformed-but-readable sources are not detected (see the counterexample).
The `hasNulByte path = false` hypothesis of the first two parts mirrors the
wrapper's check order — `CString::new(path)` runs before the existence and
emptiness checks — and is vacuously satisfied by the path of any real file,
since no filesystem path contains a NUL byte. -/
theorem set_index_error_cases (path : List Nat) (f : SetIndex.FsFile)
    (output : Option (List Nat)) (records : List Channels.WorkUnit)
    (threads : Nat) :
    (SetIndex.hasNulByte path = false → f.present = false →
        SetIndex.set_index path f output = .error "Index File does not exist") ∧
    (SetIndex.hasNulByte path = false → f.present = true → f.size = 0 →
        SetIndex.set_index path f output = .error "Index File is empty") ∧
    (∀ a, SetIndex.set_index path f output = .ok a →
        a.idxSet = true ∧ f.present = true ∧ 0 < f.size) ∧
    (∀ e, SetIndex.set_index path f none = .error e →
        SetIndex.channelsStart path f records threads = .error e) ∧
    (∀ a, SetIndex.set_index path f none = .ok a →
        SetIndex.channelsStart path f records threads =
          .ok (Channels.initState records threads)) := by
  refine ⟨?_, ?_, ?_, ?_, ?_⟩
  · intro h1 h2
    simp [SetIndex.set_index, h1, h2]
  · intro h1 h2 h3
    simp [SetIndex.set_index, h1, h2, h3]
  · intro a ha
    by_cases h1 : SetIndex.hasNulByte path = true
    · simp [SetIndex.set_index, h1] at ha
    · by_cases h2 : f.present = false
      · simp [SetIndex.set_index, h1, h2] at ha
      · by_cases h3 : f.size = 0
        · simp [SetIndex.set_index, h1, h2, h3] at ha
        · have hp : f.present = true := by
            cases hpp : f.present
            · exact absurd hpp h2
            · rfl
          refine ⟨?_, hp, by omega⟩
          cases output with
          | none =>
            simp [SetIndex.set_index, h1, h2, h3] at ha
            rw [← ha]
          | some o =>
            by_cases h4 : SetIndex.hasNulByte o = true
            · simp [SetIndex.set_index, h1, h2, h3, h4] at ha
            · simp [SetIndex.set_index, h1, h2, h3, h4] at ha
              rw [← ha]
  · intro e he
    simp [SetIndex.channelsStart, he]
  · intro a ha
    simp [SetIndex.channelsStart, ha]

theorem set_index_error_cases_witness :
    SetIndex.set_index [1] ⟨false, 0, true⟩ none =
      Except.error "Index File does not exist" :=
  (set_index_error_cases [1] ⟨false, 0, true⟩ none [] 2).1 rfl rfl

/-- **C7.** In the channels worker (examples/channels.rs lines 170-174,
fakeminimap2/src/channels.rs lines 200-204) an `Err` from the external
alignment call makes the worker panic via
`.expect("Unable to align")` inside its thread: no `ResultItem` is built or
pushed for that `WorkItem` (the result type `(WorkUnit, Vec<Mapping>)` has
no error-carrying variant at all) and the thread terminates by panic. -/
theorem worker_panics_on_align_error
    (alignCall : Channels.WorkUnit → Except String (List Nat))
    (u : Channels.WorkUnit) :
    ∀ e, alignCall u = .error e →
      ChannelsWorker.processWork alignCall u =
        ChannelsWorker.ProcessOutcome.panicked "Unable to align" ∧
      ∀ res, ChannelsWorker.processWork alignCall u ≠
          ChannelsWorker.ProcessOutcome.pushed res := by
  intro e he
  constructor
  · simp [ChannelsWorker.processWork, he]
  · intro res hcontra
    simp [ChannelsWorker.processWork, he] at hcontra

theorem worker_panics_on_align_error_witness :
    ChannelsWorker.processWork ChannelsWorker.failingAlign Channels.u0 =
      ChannelsWorker.ProcessOutcome.panicked "Unable to align" :=
  (worker_panics_on_align_error ChannelsWorker.failingAlign Channels.u0
      "mm_map failed" rfl).1

/-- **C8 counterexample.** It is false that every call performed through the
`Built` aligner leaves the index unchanged: `read_junction` (a method of
`Aligner<Built>`, src/lib.rs lines 945-964) loads BED data into the shared
`mm_idx_t` through a `*mut` cast, mutating it after construction. -/
theorem built_aligner_op_mutates_index :
    ¬ ∀ op, (BuiltIndex.runOp BuiltIndex.ffi0 BuiltIndex.idx0 op).1 =
        BuiltIndex.idx0 := by
  intro hall
  have h := hall (BuiltIndex.BuiltOp.readJunctionOp (some [3]))
  simp [BuiltIndex.runOp, BuiltIndex.read_junction, BuiltIndex.idx0] at h

/-- **C8 (amended).** After the index is built, the query operations —
`map` (which passes `*const mm_idx_t` to the foreign call, src/lib.rs line
1116) and `n_seq` — never mutate the index, which is why concurrent mapping
requires no locking; but the loader methods `read_junction` / `read_pass1` /
`read_splice_scores` exposed on the same `Aligner<Built>` do mutate it, so
index immutability holds only for the query path. -/
theorem query_ops_leave_index_unchanged
    (ffiMap : BuiltIndex.MmIdxT → List Nat → List Nat)
    (idx : BuiltIndex.MmIdxT) (seq : List Nat) (d : List Nat) :
    (BuiltIndex.runOp ffiMap idx (.mapOp seq)).1 = idx ∧
    (BuiltIndex.runOp ffiMap idx .nSeqOp).1 = idx ∧
    (BuiltIndex.runOp ffiMap idx (.readJunctionOp (some d))).1 =
      { idx with jumpData := some d } ∧
    (BuiltIndex.runOp ffiMap idx (.readSpliceScoresOp (some d))).1 =
      { idx with spsc := some d } :=
  ⟨rfl, rfl, rfl, rfl⟩

/-- **C10.** `Aligner<Built>::map` (src/lib.rs lines 1050-1067): with no
index it returns `Err("No index")`; with an index but an empty sequence it
returns `Err("Sequence is empty")` (the index check runs first); and the
foreign `mm_map` call is reached only for a non-empty sequence on an
aligner whose index is set. -/
theorem map_checks_index_then_empty
    (hasIdx : Bool) (seq : List Nat) (qname : Option (List Nat)) :
    (hasIdx = false →
        AlignerMap.aligner_map hasIdx seq qname =
          AlignerMap.MapOutcome.errResult "No index") ∧
    (hasIdx = true → seq = [] →
        AlignerMap.aligner_map hasIdx seq qname =
          AlignerMap.MapOutcome.errResult "Sequence is empty") ∧
    (∀ s2 q2, AlignerMap.aligner_map hasIdx seq qname =
          AlignerMap.MapOutcome.ffiMapCall s2 q2 →
        hasIdx = true ∧ seq ≠ [] ∧ s2 = seq) := by
  refine ⟨?_, ?_, ?_⟩
  · intro h
    simp [AlignerMap.aligner_map, h]
  · intro h hs
    simp [AlignerMap.aligner_map, h, hs]
  · intro s2 q2 hmap
    unfold AlignerMap.aligner_map at hmap
    split at hmap
    · cases hmap
    · next h1 =>
        split at hmap
        · cases hmap
        · next h2 =>
            have hidx : hasIdx = true := by
              cases hasIdx
              · exact absurd rfl h1
              · rfl
            have hne : seq ≠ [] := by
              intro hnil
              rw [hnil] at h2
              simp at h2
            split at hmap
            · cases hmap
              exact ⟨hidx, hne, rfl⟩
            · split at hmap
              · cases hmap
                exact ⟨hidx, hne, rfl⟩
              · cases hmap

theorem map_checks_index_then_empty_witness :
    AlignerMap.aligner_map false [1] none =
      AlignerMap.MapOutcome.errResult "No index" :=
  (map_checks_index_then_empty false [1] none).1 rfl
